import Mathlib

set_option maxRecDepth 100000

/-!
Verification of the hyperV-to-ova migration tool core against its
specification.  The Go sources are shallowly embedded below: pure string
manipulation and hashing are translated to executable Lean functions,
dynamic (`interface{}` / unstructured) values become the `GoValue` type,
filesystem access (`os.Stat`, `os.ReadFile`, glob results, the working
directory) is passed in as explicit resolver arguments, and the
`encoding/gob` encoder of the Go standard library is abstracted as an
encoding function argument.  Machine integers are modelled as `Nat`/`Int`
with explicit `% 2^w` reductions where overflow can matter.
-/

/-! ## Byte and string utilities shared by the embedding -/

/-- The sixteen lowercase hexadecimal digit characters, in value order
(the `hextable` string constant of Go's `encoding/hex`, also reused for
decimal digits). -/
def hexDigitChars : List Char :=
  "0123456789abcdef".data

/-- Digit character for a value below 16 (table indexing as in `encoding/hex`). -/
def hexDigit (n : Nat) : Char :=
  hexDigitChars.getD n '0'

/-- `hex.EncodeToString` of Go, at the character-list level: every byte
becomes its high nibble's digit followed by its low nibble's digit. -/
def hexEncodeChars : List Nat → List Char
  | [] => []
  | b :: rest => hexDigit (b >>> 4 % 16) :: hexDigit (b % 16) :: hexEncodeChars rest

/-- ASCII lower-casing of one character, as Go's `strings.ToLower` acts on
the ASCII range (the sources only ever classify ASCII captions). -/
def lowerChar (c : Char) : Char :=
  if 65 ≤ c.toNat ∧ c.toNat ≤ 90 then Char.ofNat (c.toNat + 32) else c

/-- `strings.ToLower`, restricted to its ASCII behaviour. -/
def goToLower (s : String) : String :=
  String.mk (s.data.map lowerChar)

/-- `strings.Contains s sub`: `sub` occurs as a contiguous substring of `s`. -/
def goContains (s sub : String) : Bool :=
  decide (sub.data <:+: s.data)

/-- Decimal digit run of `n`, most significant first; the first argument is
recursion fuel (any fuel `≥ n` gives the digits of `n`). -/
def natToCharsAux : Nat → Nat → List Char
  | 0, _ => []
  | _ + 1, 0 => []
  | fuel + 1, n + 1 => natToCharsAux fuel ((n + 1) / 10) ++ [hexDigit ((n + 1) % 10)]

/-- `strconv.Itoa` for non-negative values: decimal, no leading zeros. -/
def itoa (n : Nat) : String :=
  if n = 0 then "0" else String.mk (natToCharsAux n n)

/-- `strconv.Itoa` / `fmt.Sprintf "%d"` on a possibly negative integer. -/
def intToString (i : Int) : String :=
  if i < 0 then "-" ++ itoa i.natAbs else itoa i.natAbs

/-! ## SHA-256 (`crypto/sha256`), executable over byte lists

Bytes are `Nat` values below 256 and words are `Nat` values below `2^32`;
every arithmetic step reduces modulo `2^32` exactly where the 32-bit
machine arithmetic of the reference implementation wraps. -/

/-- `2^32`, the word modulus. -/
def M32 : Nat := 4294967296

/-- Right rotation of a 32-bit word by `n` places. -/
def rotr32 (x n : Nat) : Nat :=
  ((x >>> n) ||| (x <<< (32 - n))) % M32

/-- SHA-256 Σ₀. -/
def bigSigma0 (x : Nat) : Nat := rotr32 x 2 ^^^ rotr32 x 13 ^^^ rotr32 x 22

/-- SHA-256 Σ₁. -/
def bigSigma1 (x : Nat) : Nat := rotr32 x 6 ^^^ rotr32 x 11 ^^^ rotr32 x 25

/-- SHA-256 σ₀. -/
def smallSigma0 (x : Nat) : Nat := rotr32 x 7 ^^^ rotr32 x 18 ^^^ (x >>> 3)

/-- SHA-256 σ₁. -/
def smallSigma1 (x : Nat) : Nat := rotr32 x 17 ^^^ rotr32 x 19 ^^^ (x >>> 10)

/-- SHA-256 choice function; complement is xor with the 32-bit mask. -/
def chFn (x y z : Nat) : Nat := (x &&& y) ^^^ ((x ^^^ 4294967295) &&& z)

/-- SHA-256 majority function. -/
def majFn (x y z : Nat) : Nat := (x &&& y) ^^^ (x &&& z) ^^^ (y &&& z)

/-- The 64 SHA-256 round constants, written in decimal. -/
def sha256K : List Nat :=
  [1116352408, 1899447441, 3049323471, 3921009573, 961987163, 1508970993,
   2453635748, 2870763221, 3624381080, 310598401, 607225278, 1426881987,
   1925078388, 2162078206, 2614888103, 3248222580, 3835390401, 4022224774,
   264347078, 604807628, 770255983, 1249150122, 1555081692, 1996064986,
   2554220882, 2821834349, 2952996808, 3210313671, 3336571891, 3584528711,
   113926993, 338241895, 666307205, 773529912, 1294757372, 1396182291,
   1695183700, 1986661051, 2177026350, 2456956037, 2730485921, 2820302411,
   3259730800, 3345764771, 3516065817, 3600352804, 4094571909, 275423344,
   430227734, 506948616, 659060556, 883997877, 958139571, 1322822218,
   1537002063, 1747873779, 1955562222, 2024104815, 2227730452, 2361852424,
   2428436474, 2756734187, 3204031479, 3329325298]

/-- The SHA-256 working state: eight 32-bit words. -/
structure Sha256State where
  a : Nat
  b : Nat
  c : Nat
  d : Nat
  e : Nat
  f : Nat
  g : Nat
  h : Nat

/-- Initial SHA-256 hash value, written in decimal. -/
def sha256Init : Sha256State :=
  ⟨1779033703, 3144134277, 1013904242, 2773480762,
   1359893119, 2600822924, 528734635, 1541459225⟩

/-- Big-endian 32-bit words from a byte list, four bytes per word. -/
def wordsOfBytes : List Nat → List Nat
  | b0 :: b1 :: b2 :: b3 :: rest =>
    (b0 % 256 * 16777216 + b1 % 256 * 65536 + b2 % 256 * 256 + b3 % 256) :: wordsOfBytes rest
  | _ => []

/-- Message-schedule extension of the 16 block words to 64 words. -/
def sha256Schedule (ws : Array Nat) : Array Nat :=
  (List.range 48).foldl
    (fun w j =>
      let t := j + 16
      w.push ((smallSigma1 (w.getD (t - 2) 0) + w.getD (t - 7) 0 +
               smallSigma0 (w.getD (t - 15) 0) + w.getD (t - 16) 0) % M32))
    ws

/-- One SHA-256 round. -/
def sha256Round (s : Sha256State) (k w : Nat) : Sha256State :=
  let t1 := (s.h + bigSigma1 s.e + chFn s.e s.f s.g + k + w) % M32
  let t2 := (bigSigma0 s.a + majFn s.a s.b s.c) % M32
  ⟨(t1 + t2) % M32, s.a, s.b, s.c, (s.d + t1) % M32, s.e, s.f, s.g⟩

/-- Compression of one 64-byte block into the running state. -/
def sha256Compress (s : Sha256State) (block : List Nat) : Sha256State :=
  let w := sha256Schedule (wordsOfBytes block).toArray
  let t := (List.range 64).foldl (fun st j => sha256Round st (sha256K.getD j 0) (w.getD j 0)) s
  ⟨(s.a + t.a) % M32, (s.b + t.b) % M32, (s.c + t.c) % M32, (s.d + t.d) % M32,
   (s.e + t.e) % M32, (s.f + t.f) % M32, (s.g + t.g) % M32, (s.h + t.h) % M32⟩

/-- Number of zero bytes of SHA-256 padding for a message of `len` bytes:
the smallest `k` with `len + 1 + k ≡ 56 [MOD 64]`. -/
def sha256PadZeros (len : Nat) : Nat :=
  (119 - len % 64) % 64

/-- Big-endian eight-byte rendering of a 64-bit value. -/
def beBytes8 (n : Nat) : List Nat :=
  [n / 72057594037927936 % 256, n / 281474976710656 % 256, n / 1099511627776 % 256,
   n / 4294967296 % 256, n / 16777216 % 256, n / 65536 % 256, n / 256 % 256, n % 256]

/-- SHA-256 message padding: `0x80`, zeros to 56 mod 64, then the bit length
as a big-endian 64-bit quantity. -/
def sha256Pad (msg : List Nat) : List Nat :=
  msg ++ 128 :: (List.replicate (sha256PadZeros msg.length) 0 ++
    beBytes8 (msg.length * 8 % 18446744073709551616))

/-- Split into 64-byte blocks; the fuel argument (any value `≥` the list
length) keeps the recursion structural so that it reduces in the kernel. -/
def toBlocksAux : Nat → List Nat → List (List Nat)
  | 0, _ => []
  | _ + 1, [] => []
  | fuel + 1, x :: rest => (x :: rest).take 64 :: toBlocksAux fuel ((x :: rest).drop 64)

/-- Split a padded message into its 64-byte blocks. -/
def toBlocks (l : List Nat) : List (List Nat) :=
  toBlocksAux l.length l

/-- Big-endian bytes of one 32-bit word. -/
def wordBytes (w : Nat) : List Nat :=
  [w / 16777216 % 256, w / 65536 % 256, w / 256 % 256, w % 256]

/-- `sha256.Sum256`: the 32-byte SHA-256 digest of a byte list. -/
def sha256 (msg : List Nat) : List Nat :=
  let s := (toBlocks (sha256Pad msg)).foldl sha256Compress sha256Init
  wordBytes s.a ++ wordBytes s.b ++ wordBytes s.c ++ wordBytes s.d ++
  wordBytes s.e ++ wordBytes s.f ++ wordBytes s.g ++ wordBytes s.h

/-- Implementation check of the digest pipeline against the published
SHA-256 value of the empty message. -/
theorem sha256_empty_vector :
    String.mk (hexEncodeChars (sha256 [])) =
      "e3b0c44298fc1c149afbf4c8996fb92427ae41e4649b934ca495991b7852b855" := by
  decide

/-- Implementation check against the published SHA-256 value of `"abc"`. -/
theorem sha256_abc_vector :
    String.mk (hexEncodeChars (sha256 [97, 98, 99])) =
      "ba7816bf8f01cfea414140de5dae2223b00361a396177a9cb410ff61f20015ad" := by
  decide

/-! ## The deterministic identifier generator (`generateForkliftUUID`)

The Go function gob-encodes an arbitrary object, hashes the encoded bytes
with SHA-256, hex-encodes the digest and keeps the first 32 characters.
The standard-library gob encoder is an external collaborator here and is
passed in as `gobEncode`; a `none` result models a failing `enc.Encode`
(in which case the Go function returns the error).  The `key` parameter
is part of the call signature but is not read by the function body,
exactly as in the source. -/

/-- `generateForkliftUUID` of the source: gob-encode, SHA-256, hex-encode,
truncate to 32 characters. -/
def generateForkliftUUID {α : Type} (gobEncode : α → Option (List Nat)) (object : α)
    (key : String) : Option String :=
  match gobEncode object with
  | none => none
  | some encoded =>
    let id := String.mk (hexEncodeChars (sha256 encoded))
    some (if 32 < id.length then String.mk (id.data.take 32) else id)

/-! ## Facts about the hexadecimal encoding and the digest length -/

theorem hexDigit_mem (n : Nat) : hexDigit n ∈ hexDigitChars := by
  unfold hexDigit
  rcases Nat.lt_or_ge n 16 with h | h
  · have hn : n < hexDigitChars.length := by
      rw [show hexDigitChars.length = 16 from rfl]
      exact h
    rw [List.getD_eq_getElem _ _ hn]
    exact List.getElem_mem hn
  · rw [List.getD_eq_default _ _ (by rw [show hexDigitChars.length = 16 from rfl]; exact h)]
    decide

theorem hexEncodeChars_length (bs : List Nat) : (hexEncodeChars bs).length = 2 * bs.length := by
  induction bs with
  | nil => rfl
  | cons b rest ih => simp [hexEncodeChars, ih]; omega

theorem hexEncodeChars_mem {bs : List Nat} {c : Char} (h : c ∈ hexEncodeChars bs) :
    c ∈ hexDigitChars := by
  induction bs with
  | nil => simp [hexEncodeChars] at h
  | cons b rest ih =>
    simp only [hexEncodeChars, List.mem_cons] at h
    rcases h with h | h | h
    · exact h ▸ hexDigit_mem _
    · exact h ▸ hexDigit_mem _
    · exact ih h

theorem mem_hexDigitChars_lower : ∀ c ∈ hexDigitChars, c.isDigit = true ∨ ('a' ≤ c ∧ c ≤ 'f') := by
  decide

theorem sha256_length (msg : List Nat) : (sha256 msg).length = 32 := by
  simp [sha256, wordBytes]

/-- Under a successful gob encoding, the generator's output is exactly the
truncated hex digest of the SHA-256 hash of the encoded bytes. -/
theorem generateForkliftUUID_eq {α : Type} (gobEncode : α → Option (List Nat)) (object : α)
    (key : String) (encoded : List Nat) (h : gobEncode object = some encoded) :
    generateForkliftUUID gobEncode object key =
      some (String.mk ((hexEncodeChars (sha256 encoded)).take 32)) := by
  unfold generateForkliftUUID
  rw [h]
  have h64 : (String.mk (hexEncodeChars (sha256 encoded))).length = 64 := by
    show (hexEncodeChars (sha256 encoded)).length = 64
    rw [hexEncodeChars_length, sha256_length]
  simp only [h64]
  rw [if_pos (by omega)]

/-! ## Decimal printing (`strconv.Itoa`) facts -/

theorem natToCharsAux_congr : ∀ (n fuel1 fuel2 : Nat), n ≤ fuel1 → n ≤ fuel2 →
    natToCharsAux fuel1 n = natToCharsAux fuel2 n := by
  intro n
  induction n using Nat.strong_induction_on with
  | _ n ih =>
    intro fuel1 fuel2 h1 h2
    rcases n with _ | m
    · cases fuel1 <;> cases fuel2 <;> rfl
    · rcases fuel1 with _ | f1
      · omega
      rcases fuel2 with _ | f2
      · omega
      have hd : (m + 1) / 10 < m + 1 := Nat.div_lt_self (by omega) (by omega)
      simp only [natToCharsAux]
      congr 1
      exact ih ((m + 1) / 10) hd f1 f2 (by omega) (by omega)

theorem natToCharsAux_ne_nil (n fuel : Nat) (h1 : 0 < n) (h2 : n ≤ fuel) :
    natToCharsAux fuel n ≠ [] := by
  rcases n with _ | m
  · omega
  rcases fuel with _ | f
  · omega
  simp [natToCharsAux]

theorem hexDigit_inj_lt10 : ∀ a < 10, ∀ b < 10, hexDigit a = hexDigit b → a = b := by
  decide

theorem natToCharsAux_inj : ∀ (n m fuel1 fuel2 : Nat), n ≤ fuel1 → m ≤ fuel2 →
    natToCharsAux fuel1 n = natToCharsAux fuel2 m → n = m := by
  intro n
  induction n using Nat.strong_induction_on with
  | _ n ih =>
    intro m fuel1 fuel2 h1 h2 heq
    rcases n with _ | n'
    · rcases m with _ | m'
      · rfl
      · rcases fuel2 with _ | f2
        · omega
        rw [show natToCharsAux fuel1 0 = [] from by cases fuel1 <;> rfl] at heq
        exact absurd heq.symm (by simp [natToCharsAux])
    · rcases m with _ | m'
      · rcases fuel1 with _ | f1
        · omega
        rw [show natToCharsAux fuel2 0 = [] from by cases fuel2 <;> rfl] at heq
        exact absurd heq (by simp [natToCharsAux])
      · rcases fuel1 with _ | f1
        · omega
        rcases fuel2 with _ | f2
        · omega
        simp only [natToCharsAux] at heq
        obtain ⟨hpre, hdig⟩ := List.append_inj' heq rfl
        have hmodeq : (n' + 1) % 10 = (m' + 1) % 10 := by
          refine hexDigit_inj_lt10 _ (by omega) _ (by omega) ?_
          simpa using hdig
        have hn' : (n' + 1) / 10 < n' + 1 := Nat.div_lt_self (by omega) (by omega)
        have hm' : (m' + 1) / 10 < m' + 1 := Nat.div_lt_self (by omega) (by omega)
        have hdiveq : (n' + 1) / 10 = (m' + 1) / 10 :=
          ih ((n' + 1) / 10) hn' ((m' + 1) / 10) f1 f2 (by omega) (by omega) hpre
        omega

theorem itoa_inj {n m : Nat} (h : itoa n = itoa m) : n = m := by
  unfold itoa at h
  by_cases hn : n = 0 <;> by_cases hm : m = 0
  · omega
  · exfalso
    rw [if_pos hn, if_neg hm] at h
    have hd : (([] : List Char) ++ ['0']) = natToCharsAux m m := by
      simpa using congrArg String.data h
    rcases m with _ | m'
    · omega
    simp only [natToCharsAux] at hd
    obtain ⟨hpre, hdig⟩ := List.append_inj' hd rfl
    have hdiv0 : (m' + 1) / 10 = 0 := by
      by_contra hne
      exact natToCharsAux_ne_nil _ m' (by omega)
        (by have := Nat.div_lt_self (Nat.succ_pos m') (by omega : (1:Nat) < 10); omega)
        hpre.symm
    have hmod0 : (m' + 1) % 10 = 0 := by
      have : '0' = hexDigit ((m' + 1) % 10) := by simpa using hdig
      have h0 : hexDigit 0 = hexDigit ((m' + 1) % 10) := this
      exact (hexDigit_inj_lt10 0 (by omega) _ (by omega) h0).symm
    omega
  · exfalso
    rw [if_neg hn, if_pos hm] at h
    have hd : (([] : List Char) ++ ['0']) = natToCharsAux n n := by
      simpa using (congrArg String.data h).symm
    rcases n with _ | n'
    · omega
    simp only [natToCharsAux] at hd
    obtain ⟨hpre, hdig⟩ := List.append_inj' hd rfl
    have hdiv0 : (n' + 1) / 10 = 0 := by
      by_contra hne
      exact natToCharsAux_ne_nil _ n' (by omega)
        (by have := Nat.div_lt_self (Nat.succ_pos n') (by omega : (1:Nat) < 10); omega)
        hpre.symm
    have hmod0 : (n' + 1) % 10 = 0 := by
      have : '0' = hexDigit ((n' + 1) % 10) := by simpa using hdig
      have h0 : hexDigit 0 = hexDigit ((n' + 1) % 10) := this
      exact (hexDigit_inj_lt10 0 (by omega) _ (by omega) h0).symm
    omega
  · rw [if_neg hn, if_neg hm] at h
    exact natToCharsAux_inj n m n m le_rfl le_rfl (congrArg String.data h)

/-- C1: the identifier generator `generateForkliftUUID` is deterministic and
key-independent: for every object value that gob-encodes successfully and for
all key strings `k1`, `k2`, two calls with the same object (and any keys)
return the same result, and that result is exactly 32 characters long, all
lowercase hexadecimal digits. -/
theorem generateForkliftUUID_deterministic_hex32 {α : Type}
    (gobEncode : α → Option (List Nat)) (object : α) (k1 k2 : String)
    (encoded : List Nat) (henc : gobEncode object = some encoded) :
    generateForkliftUUID gobEncode object k1 = generateForkliftUUID gobEncode object k2 ∧
    ∃ s, generateForkliftUUID gobEncode object k1 = some s ∧
      s.length = 32 ∧ ∀ c ∈ s.data, c.isDigit = true ∨ ('a' ≤ c ∧ c ≤ 'f') := by
  refine ⟨rfl, String.mk ((hexEncodeChars (sha256 encoded)).take 32),
    generateForkliftUUID_eq gobEncode object k1 encoded henc, ?_, ?_⟩
  · show ((hexEncodeChars (sha256 encoded)).take 32).length = 32
    rw [List.length_take, hexEncodeChars_length, sha256_length]
    decide
  · intro c hc
    exact mem_hexDigitChars_lower c (hexEncodeChars_mem (List.take_subset _ _ hc))

/-- Witness for C1 at a concrete one-byte encoding and two distinct keys. -/
theorem generateForkliftUUID_deterministic_hex32_witness :
    generateForkliftUUID (fun _ : Unit => some [0]) () "diskKey" =
      generateForkliftUUID (fun _ : Unit => some [0]) () "netKey" ∧
    ∃ s, generateForkliftUUID (fun _ : Unit => some [0]) () "diskKey" = some s ∧
      s.length = 32 ∧ ∀ c ∈ s.data, c.isDigit = true ∨ ('a' ≤ c ∧ c ≤ 'f') :=
  generateForkliftUUID_deterministic_hex32 (fun _ : Unit => some [0]) () "diskKey" "netKey"
    [0] rfl

/-! ## Guest-OS classifier and OS-id lookup (`ova/ovfFormater.go`)

`osNameToID` is a Go map literal; it is embedded as an association list in
the order of the source literal.  Go iterates maps in unspecified order, so
every theorem about the partial-match scan only asserts facts that hold
for any iteration order (existence of a matching entry, or emptiness). -/

/-- The OS-name → OVF OS id table, in source-literal order. -/
def osNameToID : List (String × Nat) :=
  [("otherGuest", 1), ("macosGuest", 2), ("attunixGuest", 3), ("dguxGuest", 4),
   ("windowsxpGuest", 5), ("windows2000Guest", 6), ("windows2003Guest", 7), ("vistaGuest", 8),
   ("windows7Guest", 9), ("windows8Guest", 10), ("windows81Guest", 11), ("windows10Guest", 103),
   ("windows10_64Guest", 103), ("windows11Guest", 103), ("windows11_64Guest", 103),
   ("windows7srv_guest", 13), ("windows7srv_64Guest", 13), ("windows8srv_guest", 112),
   ("windows8srv_64Guest", 112), ("windows2016srv_guest", 15), ("windows2016srv_64Guest", 15),
   ("windows2019srv_guest", 94), ("windows2019srv_64Guest", 94), ("windows2022srv_guest", 17),
   ("windows2022srv_64Guest", 17), ("rhel7Guest", 20), ("rhel8_64Guest", 21),
   ("ubuntuGuest", 22), ("ubuntu64Guest", 22), ("centosGuest", 24), ("centos64Guest", 24),
   ("debian10Guest", 26), ("debian10_64Guest", 26), ("fedoraGuest", 27), ("fedora64Guest", 27),
   ("slesGuest", 29), ("sles_64Guest", 30), ("solaris10Guest", 31), ("solaris11Guest", 32),
   ("freebsd11Guest", 33), ("freebsd12Guest", 34), ("oracleLinuxGuest", 35),
   ("oracleLinux64Guest", 36), ("otherLinuxGuest", 101), ("otherLinux64Guest", 101)]

/-- `GetOVFOperatingSystemID`: lower-case the input, try an exact table
lookup, then scan the table for an entry whose lower-cased key is contained
in the input, and finally default to `1` ("other"). -/
def getOVFOperatingSystemID (osName : String) : Nat :=
  match List.lookup (goToLower osName) osNameToID with
  | some id => id
  | none =>
    match osNameToID.find? (fun p => goContains (goToLower osName) (goToLower p.1)) with
    | some p => p.2
    | none => 1

/-- `mapCaptionToOsType`: ordered substring-containment rules over the
lower-cased caption, each branching on whether the lower-cased architecture
equals "64-bit". -/
def mapCaptionToOsType (caption arch : String) : String :=
  let c := goToLower caption
  let a := goToLower arch
  if goContains c "windows server 2022" then
    if a = "64-bit" then "windows2022srv_64Guest" else "windows2022srv_guest"
  else if goContains c "windows server 2019" then
    if a = "64-bit" then "windows2019srv_64Guest" else "windows2019srv_guest"
  else if goContains c "windows server 2016" then
    if a = "64-bit" then "windows2016srv_64Guest" else "windows2016srv_guest"
  else if goContains c "windows server 2012 r2" then
    if a = "64-bit" then "windows8srv_64Guest" else "windows8srv_guest"
  else if goContains c "windows server 2012" then
    if a = "64-bit" then "windows8srv_64Guest" else "windows8srv_guest"
  else if goContains c "windows server 2008 r2" then
    if a = "64-bit" then "windows7srv_64Guest" else "windows7srv_guest"
  else if goContains c "windows 11" then
    if a = "64-bit" then "windows11_64Guest" else "windows11Guest"
  else if goContains c "windows 10" then
    if a = "64-bit" then "windows10_64Guest" else "windows10Guest"
  else if goContains c "windows 8.1" then
    if a = "64-bit" then "windows8_64Guest" else "windows8Guest"
  else if goContains c "windows 8" then
    if a = "64-bit" then "windows8_64Guest" else "windows8Guest"
  else if goContains c "windows 7" then
    if a = "64-bit" then "windows7_64Guest" else "windows7Guest"
  else if goContains c "windows vista" then
    if a = "64-bit" then "vista_64Guest" else "vistaGuest"
  else if goContains c "ubuntu" then
    if a = "64-bit" then "ubuntu64Guest" else "ubuntuGuest"
  else if goContains c "debian" then
    if a = "64-bit" then "debian10_64Guest" else "debian10Guest"
  else if goContains c "centos" then
    if a = "64-bit" then "centos64Guest" else "centosGuest"
  else if goContains c "red hat enterprise linux" || goContains c "rhel" then
    if a = "64-bit" then "rhel8_64Guest" else "rhel7Guest"
  else if goContains c "suse" then
    if a = "64-bit" then "sles_64Guest" else "slesGuest"
  else if goContains c "fedora" then
    if a = "64-bit" then "fedora64Guest" else "fedoraGuest"
  else if goContains c "oracle linux" then
    if a = "64-bit" then "oracleLinux64Guest" else "oracleLinuxGuest"
  else if goContains c "linux" then
    if a = "64-bit" then "otherLinux64Guest" else "otherLinuxGuest"
  else "otherGuest"

/-! ### Lower-casing and containment facts -/

theorem lowerChar_idem (c : Char) : lowerChar (lowerChar c) = lowerChar c := by
  unfold lowerChar
  by_cases h : 65 ≤ c.toNat ∧ c.toNat ≤ 90
  · rw [if_pos h]
    have hval : (Char.ofNat (c.toNat + 32)).toNat = c.toNat + 32 := by
      unfold Char.ofNat
      rw [dif_pos (Or.inl (by omega))]
      rfl
    rw [if_neg (by omega)]
  · rw [if_neg h, if_neg h]

theorem goToLower_idem (s : String) : goToLower (goToLower s) = goToLower s := by
  show String.mk ((s.data.map lowerChar).map lowerChar) = String.mk (s.data.map lowerChar)
  congr 1
  induction s.data with
  | nil => rfl
  | cons c rest ih => simp [lowerChar_idem, ih]

theorem goContains_refl (s : String) : goContains s s = true :=
  decide_eq_true (List.infix_refl s.data)

/-- C4: the guest-OS classifier is a pure total function (total by
construction in this embedding, as in the source, which ends in a default
case) and returns the 2019 64-bit server token for "Windows Server 2019
Standard"/"64-bit", the Ubuntu 64-bit token for "Ubuntu 22.04"/"64-bit",
and the generic token for empty caption and architecture. -/
theorem mapCaptionToOsType_examples :
    mapCaptionToOsType "Windows Server 2019 Standard" "64-bit" = "windows2019srv_64Guest" ∧
    mapCaptionToOsType "Ubuntu 22.04" "64-bit" = "ubuntu64Guest" ∧
    mapCaptionToOsType "" "" = "otherGuest" := by
  decide

/-- C5 counterexample: a caption whose lowercase form contains both
"windows server 2016" and "2012" can still classify to a 2019 token,
because the 2022 and 2019 rules are checked before the 2016 rule. -/
theorem mapCaptionToOsType_2016_counterexample :
    goContains (goToLower "Windows Server 2019 Windows Server 2016 2012")
      "windows server 2016" = true ∧
    goContains (goToLower "Windows Server 2019 Windows Server 2016 2012") "2012" = true ∧
    mapCaptionToOsType "Windows Server 2019 Windows Server 2016 2012" "64-bit" =
      "windows2019srv_64Guest" := by
  refine ⟨by decide, by decide, by decide⟩

/-- C5 (amended): for every caption whose lowercase form contains
"windows server 2016" and contains neither "windows server 2022" nor
"windows server 2019", the classifier returns the 2016 token (64-bit
variant exactly when the lowercase architecture equals "64-bit"), never a
2012 token: the 2016 rule wins over the later 2012 rules by first-match
ordering. -/
theorem mapCaptionToOsType_2016_first_match (caption arch : String)
    (h16 : goContains (goToLower caption) "windows server 2016" = true)
    (h22 : goContains (goToLower caption) "windows server 2022" = false)
    (h19 : goContains (goToLower caption) "windows server 2019" = false) :
    mapCaptionToOsType caption arch =
      (if goToLower arch = "64-bit" then "windows2016srv_64Guest"
       else "windows2016srv_guest") := by
  unfold mapCaptionToOsType
  simp [h16, h22, h19]

/-- Witness for the amended C5 at a concrete caption holding both the 2016
and 2012 keywords. -/
theorem mapCaptionToOsType_2016_first_match_witness :
    mapCaptionToOsType "Windows Server 2016 (upgraded from 2012)" "64-bit" =
      (if goToLower "64-bit" = "64-bit" then "windows2016srv_64Guest"
       else "windows2016srv_guest") :=
  mapCaptionToOsType_2016_first_match "Windows Server 2016 (upgraded from 2012)" "64-bit"
    (by decide) (by decide) (by decide)

/-- C6: `GetOVFOperatingSystemID` returns the table id on an exact key
match; otherwise, when some table key is contained (case-insensitively) in
the input, it returns the id of such a contained key; otherwise it returns
the default `1` ("other"). -/
theorem getOVFOperatingSystemID_spec :
    (∀ p ∈ osNameToID, getOVFOperatingSystemID p.1 = p.2) ∧
    (∀ s : String, (∃ p ∈ osNameToID, goContains (goToLower s) (goToLower p.1) = true) →
      ∃ p ∈ osNameToID, goContains (goToLower s) (goToLower p.1) = true ∧
        getOVFOperatingSystemID s = p.2) ∧
    (∀ s : String, (∀ p ∈ osNameToID, goContains (goToLower s) (goToLower p.1) = false) →
      getOVFOperatingSystemID s = 1) := by
  refine ⟨by decide, ?_, ?_⟩
  · intro s hex
    cases hl : List.lookup (goToLower s) osNameToID with
    | some id =>
      obtain ⟨l₁, l₂, hdecomp, -⟩ := List.lookup_eq_some_iff.mp hl
      have hres : getOVFOperatingSystemID s = id := by
        unfold getOVFOperatingSystemID
        rw [hl]
      refine ⟨(goToLower s, id), ?_, ?_, hres⟩
      · rw [hdecomp]
        simp
      · rw [goToLower_idem]
        exact goContains_refl _
    | none =>
      cases hf : osNameToID.find? (fun p => goContains (goToLower s) (goToLower p.1)) with
      | some p =>
        have hres : getOVFOperatingSystemID s = p.2 := by
          unfold getOVFOperatingSystemID
          rw [hl, hf]
        exact ⟨p, List.mem_of_find?_eq_some hf, by simpa using List.find?_some hf, hres⟩
      | none =>
        obtain ⟨p0, hmem, hcont⟩ := hex
        have := List.find?_eq_none.mp hf p0 hmem
        simp [hcont] at this
  · intro s hnone
    cases hl : List.lookup (goToLower s) osNameToID with
    | some id =>
      exfalso
      obtain ⟨l₁, l₂, hdecomp, -⟩ := List.lookup_eq_some_iff.mp hl
      have hmem : (goToLower s, id) ∈ osNameToID := by
        rw [hdecomp]
        simp
      have hfalse := hnone _ hmem
      rw [goToLower_idem, goContains_refl] at hfalse
      exact Bool.true_eq_false.mp hfalse
    | none =>
      cases hf : osNameToID.find? (fun p => goContains (goToLower s) (goToLower p.1)) with
      | some p =>
        exfalso
        have htrue : goContains (goToLower s) (goToLower p.1) = true := by
          simpa using List.find?_some hf
        have hfalse := hnone p (List.mem_of_find?_eq_some hf)
        rw [hfalse] at htrue
        exact Bool.false_ne_true htrue
      | none =>
        unfold getOVFOperatingSystemID
        rw [hl, hf]

/-- Witness for C6's substring-fallback branch at a concrete non-key input
containing the "ubuntu64Guest" key. -/
theorem getOVFOperatingSystemID_spec_witness :
    ∃ p ∈ osNameToID,
      goContains (goToLower "box ubuntu64guest vm") (goToLower p.1) = true ∧
        getOVFOperatingSystemID "box ubuntu64guest vm" = p.2 :=
  getOVFOperatingSystemID_spec.2.1 "box ubuntu64guest vm"
    ⟨("ubuntu64Guest", 22), by decide, by decide⟩

/-- C10: the three 64-bit desktop tokens "windows7_64Guest",
"windows8_64Guest" and "vista_64Guest" are absent from the OS-id table, no
table key is a case-insensitive substring of them, and consequently every
caption classified (with architecture "64-bit") to one of them gets the
default OS family id 1. -/
theorem desktop64Tokens_get_default_id :
    (∀ t ∈ ["windows7_64Guest", "windows8_64Guest", "vista_64Guest"],
      getOVFOperatingSystemID t = 1) ∧
    (∀ t ∈ ["windows7_64Guest", "windows8_64Guest", "vista_64Guest"],
      ∀ p ∈ osNameToID, p.1 ≠ t ∧ goContains (goToLower t) (goToLower p.1) = false) ∧
    (∀ caption : String,
      mapCaptionToOsType caption "64-bit" ∈
        ["windows7_64Guest", "windows8_64Guest", "vista_64Guest"] →
      getOVFOperatingSystemID (mapCaptionToOsType caption "64-bit") = 1) := by
  refine ⟨by decide, by decide, ?_⟩
  intro caption h
  simp only [List.mem_cons, List.not_mem_nil, or_false] at h
  rcases h with h | h | h <;> rw [h] <;> decide

/-- Witness for C10 at a concrete Windows 7 caption. -/
theorem desktop64Tokens_get_default_id_witness :
    getOVFOperatingSystemID (mapCaptionToOsType "Microsoft Windows 7 Enterprise" "64-bit") = 1 :=
  desktop64Tokens_get_default_id.2.2 "Microsoft Windows 7 Enterprise" (by decide)

/-! ## Dynamic values (`interface{}` / unstructured maps)

Go's JSON-shaped dynamic values are modelled by `GoValue`: maps become
association lists (real inputs carry no duplicate keys; lookup takes the
first binding) and all numeric dynamic values (`float64`/`int64`) are
modelled as integers — no claim depends on fractional values, and the
float-to-int conversions of the source truncate. -/

/-- A Go dynamic (JSON-shaped) value. -/
inductive GoValue where
  | str (s : String)
  | num (n : Int)
  | boolean (b : Bool)
  | null
  | list (items : List GoValue)
  | obj (fields : List (String × GoValue))

/-- Map indexing `m[k]` on a dynamic object. -/
def lookupField (fields : List (String × GoValue)) (key : String) : Option GoValue :=
  List.lookup key fields

/-! ## Path helpers (`strings` / `path/filepath`) used by the compiler -/

/-- Character-level worker for `strings.ReplaceAll` with the nonempty
pattern `o :: os`; the fuel argument (the input length at the call site)
keeps the recursion structural. -/
def replaceAllChars (o : Char) (os new : List Char) : Nat → List Char → List Char
  | 0, l => l
  | _ + 1, [] => []
  | fuel + 1, c :: rest =>
    if (o :: os).isPrefixOf (c :: rest) then
      new ++ replaceAllChars o os new fuel ((c :: rest).drop (os.length + 1))
    else
      c :: replaceAllChars o os new fuel rest

/-- `strings.ReplaceAll`; the only call site passes the nonempty pattern
`"\\"`, so Go's empty-pattern insertion behaviour is not modelled. -/
def goReplaceAll (s old new : String) : String :=
  match old.data with
  | [] => s
  | o :: os => String.mk (replaceAllChars o os new.data s.data.length s.data)

/-- `filepath.Base` for slash-separated paths (the source normalizes
backslashes to slashes first): strip trailing slashes, then keep the part
after the last slash; all-slash input gives "/", empty input ".". -/
def goFilepathBase (s : String) : String :=
  if s = "" then "."
  else
    let trimmed := (s.data.reverse.dropWhile (fun c => c = '/')).reverse
    if trimmed = [] then "/"
    else String.mk ((trimmed.reverse.takeWhile (fun c => c ≠ '/')).reverse)

/-- Reverse scan for `filepath.Ext`: walking the reversed final element,
collect characters until the first dot (inclusive); a slash or the start of
the string means no extension. -/
def extScan : List Char → List Char → List Char
  | _, [] => []
  | acc, c :: rest =>
    if c = '/' then []
    else if c = '.' then c :: acc
    else extScan (c :: acc) rest

/-- `filepath.Ext`: the suffix starting at the final dot of the final path
element, or the empty string. -/
def goFilepathExt (s : String) : String :=
  String.mk (extScan [] s.data.reverse)

/-- `strings.TrimSuffix`. -/
def goTrimSuffix (s suffix : String) : String :=
  if suffix.data.isSuffixOf s.data then
    String.mk (s.data.take (s.data.length - suffix.data.length))
  else s

/-- `filepath.Join` of two nonempty-or-empty elements; Go additionally runs
`Clean` on the result, which this embedding omits — the joined string is
only ever consumed by the abstract stat resolver. -/
def goJoin (a b : String) : String :=
  if a = "" then b else if b = "" then a else a ++ "/" ++ b

/-- The sibling raw-disk file name derived from a hard drive's source path
(source lines 161–165): backslashes normalized to slashes, base name taken,
extension stripped, ".raw" appended. -/
def rawDiskFileName (pathRaw : String) : String :=
  let normalized := goReplaceAll pathRaw "\\" "/"
  let base := goFilepathBase normalized
  goTrimSuffix base (goFilepathExt base) ++ ".raw"

/-! ## The OVF descriptor document

The struct declarations (`Envelope`, `File`, `Disk`, `Network`, `Item`,
...) are not among the provided sources; their fields are reconstructed
from their use in `FormatFromHyperV` and from §3 of the specification.
Unset Go struct fields keep their zero values, mirrored here by field
defaults. -/

/-- OVF `File` reference entry. -/
structure File where
  ID : String
  Href : String
  Size : Int

/-- OVF `Disk` section entry. -/
structure Disk where
  Capacity : Int
  CapacityAllocationUnits : String
  DiskID : String
  FileRef : String
  Format : String

/-- OVF logical network entry. -/
structure Network where
  Name : String
  Description : String

/-- OVF virtual hardware item; the resource type selects the meaningful
fields, the rest keep their zero values. -/
structure Item where
  InstanceID : String := ""
  ResourceType : Nat := 0
  ResourceSubType : String := ""
  Description : String := ""
  AllocationUnits : String := ""
  ElementName : String := ""
  VirtualQuantity : Int := 0
  Address : String := ""
  HostResource : String := ""
  Parent : String := ""
  AddressOnParent : String := ""
  Connection : String := ""
  AutomaticAllocation : Option Bool := none

/-- OVF operating-system section. -/
structure OperatingSystemSection where
  ID : Nat
  OsType : String
  Info : String
  Description : String

/-- OVF virtual-system settings identity block (named `System` in the
source's wire schema). -/
structure OvfSystem where
  ElementName : String
  InstanceID : Nat
  VirtualSystemIdentifier : String
  VirtualSystemType : String

/-- OVF virtual-hardware section. -/
structure VirtualHardwareSection where
  Info : String
  System : OvfSystem
  Items : List Item

/-- OVF virtual-system section. -/
structure VirtualSystem where
  ID : String
  Info : String
  Name : String
  OperatingSystem : OperatingSystemSection
  VirtualHardware : VirtualHardwareSection

/-- OVF file references section. -/
structure References where
  Files : List File

/-- OVF disk section. -/
structure DiskSection where
  Info : String
  Disks : List Disk

/-- OVF network section. -/
structure NetworkSection where
  Info : String
  Networks : List Network

/-- The OVF envelope (namespace attributes plus the four sections). -/
structure Envelope where
  Xmlns : String
  Cim : String
  Ovf : String
  Rasd : String
  Vmw : String
  Vssd : String
  Xsi : String
  References : References
  DiskSection : DiskSection
  NetworkSection : NetworkSection
  VirtualSystem : VirtualSystem

/-! ## The descriptor compiler (`FormatFromHyperV`, source lines 89–302) -/

/-- The `Path` field of a hard-drive map, with Go's zero-value default for
a missing or non-string entry (`pathRaw, _ := hd["Path"].(string)`). -/
def drivePathRaw (fields : List (String × GoValue)) : String :=
  match lookupField fields "Path" with
  | some (GoValue.str s) => s
  | _ => ""

/-- The hard-drive loop of `FormatFromHyperV` (source lines 150–202).
`i` is the Go loop index and `instID` the hardware instance-id counter;
non-map entries are skipped exactly as the `continue` does (advancing `i`
but not `instID`).  `stat` abstracts `os.Stat(path).Size()`; a `none`
aborts the whole compilation as in the source.  Returns the accumulated
`File`, `Disk` and `Item` lists and the final counter value. -/
def processHardDrives (stat : String → Option Int) (wd ideID : String) :
    List GoValue → Nat → Nat → Except String (List File × List Disk × List Item × Nat)
  | [], _, instID => .ok ([], [], [], instID)
  | hd :: rest, i, instID =>
    match hd with
    | GoValue.obj fields =>
      let diskIndex := i + 1
      let fileRefID := "file" ++ itoa diskIndex
      let fileName := rawDiskFileName (drivePathRaw fields)
      let rawDiskPath := goJoin wd fileName
      match stat rawDiskPath with
      | none => .error ("failed to get size of raw disk file " ++ rawDiskPath)
      | some size =>
        match processHardDrives stat wd ideID rest (i + 1) (instID + 1) with
        | .error e => .error e
        | .ok (files, disks, items, finalID) =>
          .ok ({ ID := fileRefID, Href := fileName, Size := size } :: files,
               { Capacity := size, CapacityAllocationUnits := "byte",
                 DiskID := "vmdisk" ++ itoa diskIndex, FileRef := fileRefID,
                 Format := "http://www.vmware.com/interfaces/specifications/vmdk.html#streamOptimized" } :: disks,
               { InstanceID := itoa instID, ResourceType := 17,
                 ElementName := "Hard Disk " ++ itoa (i + 1),
                 Description := "Hard Disk",
                 HostResource := "ovf:/disk/" ++ ("vmdisk" ++ itoa diskIndex),
                 Parent := ideID, AddressOnParent := itoa i } :: items,
               finalID)
    | _ => processHardDrives stat wd ideID rest (i + 1) instID

/-- The network-adapter loop of `FormatFromHyperV` (source lines 205–236);
non-map entries are skipped, an empty or missing adapter name falls back to
the positional default. -/
def processAdapters : List GoValue → Nat → Nat → List Network × List Item
  | [], _, _ => ([], [])
  | a :: rest, i, instID =>
    match a with
    | GoValue.obj fields =>
      let networkIndex := i + 1
      let defaultName := "VM Network " ++ itoa networkIndex
      let networkName := match lookupField fields "Name" with
        | some (GoValue.str n) => if n = "" then defaultName else n
        | _ => defaultName
      let restResult := processAdapters rest (i + 1) (instID + 1)
      ({ Name := networkName,
         Description := "Network interface " ++ itoa networkIndex } :: restResult.1,
       { InstanceID := itoa instID, ResourceType := 10, ResourceSubType := "E1000",
         ElementName := "Ethernet " ++ itoa networkIndex,
         Description := "E1000 ethernet adapter on \"" ++ networkName ++ "\"",
         Connection := networkName, AutomaticAllocation := some true } :: restResult.2)
    | _ => processAdapters rest (i + 1) instID

/-- The `HardDrives` list of a VM map; a missing or non-list value makes
the source skip the whole disk loop. -/
def hardDrivesOf (vmMap : List (String × GoValue)) : List GoValue :=
  match lookupField vmMap "HardDrives" with
  | some (GoValue.list l) => l
  | _ => []

/-- The `NetworkAdapters` list of a VM map. -/
def adaptersOf (vmMap : List (String × GoValue)) : List GoValue :=
  match lookupField vmMap "NetworkAdapters" with
  | some (GoValue.list l) => l
  | _ => []

/-- The CPU count of a VM map (`ProcessorCount`, default 1 when missing or
not numeric; the source's `float64` is an integer here). -/
def cpuCountOf (vmMap : List (String × GoValue)) : Int :=
  match lookupField vmMap "ProcessorCount" with
  | some (GoValue.num v) => v
  | _ => 1

/-- The startup memory in MB (`MemoryStartup / 1024 / 1024`, default 1024;
the float divisions of the source truncate and are integer divisions
here). -/
def memoryMBOf (vmMap : List (String × GoValue)) : Int :=
  match lookupField vmMap "MemoryStartup" with
  | some (GoValue.num v) => (v.tdiv 1024).tdiv 1024
  | _ => 1024

/-- The VM name (`Name`, default "VM"). -/
def vmNameOf (vmMap : List (String × GoValue)) : String :=
  match lookupField vmMap "Name" with
  | some (GoValue.str n) => n
  | _ => "VM"

/-- The guest-OS caption, empty when `GuestOSInfo` or `Caption` is absent. -/
def captionOf (vmMap : List (String × GoValue)) : String :=
  match lookupField vmMap "GuestOSInfo" with
  | some (GoValue.obj g) =>
    match lookupField g "Caption" with
    | some (GoValue.str c) => c
    | _ => ""
  | _ => ""

/-- The guest-OS architecture, empty when absent. -/
def archOf (vmMap : List (String × GoValue)) : String :=
  match lookupField vmMap "GuestOSInfo" with
  | some (GoValue.obj g) =>
    match lookupField g "OSArchitecture" with
    | some (GoValue.str a) => a
    | _ => ""
  | _ => ""

/-- The classified OS-type token of a VM map. -/
def osTypeOf (vmMap : List (String × GoValue)) : String :=
  mapCaptionToOsType (captionOf vmMap) (archOf vmMap)

/-- The CPU hardware item (instance id 1). -/
def cpuItemOf (vmMap : List (String × GoValue)) : Item :=
  { InstanceID := itoa 1, ResourceType := 3, Description := "Number of virtual CPUs",
    AllocationUnits := "hertz * 10^6",
    ElementName := intToString (cpuCountOf vmMap) ++ " virtual CPU(s)",
    VirtualQuantity := cpuCountOf vmMap }

/-- The memory hardware item (instance id 2). -/
def memItemOf (vmMap : List (String × GoValue)) : Item :=
  { InstanceID := itoa 2, ResourceType := 4, Description := "Memory Size",
    AllocationUnits := "byte * 2^20",
    ElementName := intToString (memoryMBOf vmMap) ++ "MB of memory",
    VirtualQuantity := memoryMBOf vmMap }

/-- The IDE controller item (instance id 3). -/
def ideItem : Item :=
  { InstanceID := itoa 3, ResourceType := 5, Address := "0",
    Description := "IDE Controller", ElementName := "VirtualIDEController 0" }

/-- The envelope value `FormatFromHyperV` assembles from the section
contents (the `env := &Envelope{...}` literal of the source). -/
def buildEnvelope (vmMap : List (String × GoValue)) (files : List File)
    (disks : List Disk) (diskItems : List Item) (networks : List Network)
    (netItems : List Item) : Envelope :=
  { Xmlns := "http://schemas.dmtf.org/ovf/envelope/1",
    Cim := "http://schemas.dmtf.org/wbem/wscim/1/common",
    Ovf := "http://schemas.dmtf.org/ovf/envelope/1",
    Rasd := "http://schemas.dmtf.org/wbem/wscim/1/cim-schema/2/CIM_ResourceAllocationSettingData",
    Vmw := "http://www.vmware.com/schema/ovf",
    Vssd := "http://schemas.dmtf.org/wbem/wscim/1/cim-schema/2/CIM_VirtualSystemSettingData",
    Xsi := "http://www.w3.org/2001/XMLSchema-instance",
    References := { Files := files },
    DiskSection := { Info := "List of the virtual disks", Disks := disks },
    NetworkSection := { Info := "The list of logical networks", Networks := networks },
    VirtualSystem :=
      { ID := vmNameOf vmMap, Info := "A Virtual system", Name := vmNameOf vmMap,
        OperatingSystem :=
          { ID := getOVFOperatingSystemID (osTypeOf vmMap), OsType := osTypeOf vmMap,
            Info := "The operating system installed",
            Description := captionOf vmMap ++ " (" ++ archOf vmMap ++ ")" },
        VirtualHardware :=
          { Info := "Virtual hardware requirements",
            System :=
              { ElementName := "Virtual Hardware Family", InstanceID := 0,
                VirtualSystemIdentifier := vmNameOf vmMap, VirtualSystemType := "vmx-07" },
            Items := [cpuItemOf vmMap, memItemOf vmMap, ideItem] ++ diskItems ++ netItems } } }

/-- `FormatFromHyperV` up to the in-memory descriptor it marshals; the XML
serialization step (`MarshalOvf`) is not modelled.  `stat` abstracts
`os.Stat(...).Size()` and `wd` the `os.Getwd()` result.  The source's
one-pass construction with let-bound intermediates is regrouped into the
named helpers above; `GuestOSInfo.Version` is read by the source but never
used in the descriptor and is not modelled. -/
def formatFromHyperV (stat : String → Option Int) (wd : String) (vm : GoValue) :
    Except String Envelope :=
  match vm with
  | GoValue.obj vmMap =>
    match processHardDrives stat wd (itoa 3) (hardDrivesOf vmMap) 0 4 with
    | .error e => .error e
    | .ok (files, disks, diskItems, nextID) =>
      let adapterResult := processAdapters (adaptersOf vmMap) 0 nextID
      .ok (buildEnvelope vmMap files disks diskItems adapterResult.1 adapterResult.2)
  | _ => .error "invalid VM format: expected map[string]interface{}"

/-! ### Loop invariants of the descriptor compiler -/

theorem processHardDrives_ok (stat : String → Option Int) (wd ideID : String) :
    ∀ (l : List GoValue) (i instID : Nat),
      (∀ hd ∈ l, ∃ fields p, hd = GoValue.obj fields ∧
        lookupField fields "Path" = some (GoValue.str p) ∧
        (stat (goJoin wd (rawDiskFileName p))).isSome = true) →
      ∃ files disks items,
        processHardDrives stat wd ideID l i instID =
          .ok (files, disks, items, instID + l.length) ∧
        files.length = l.length ∧ disks.length = l.length ∧ items.length = l.length ∧
        (∀ j, j < l.length →
          ∃ fl dk it, files[j]? = some fl ∧ disks[j]? = some dk ∧ items[j]? = some it ∧
            fl.ID = "file" ++ itoa (i + j + 1) ∧
            dk.FileRef = "file" ++ itoa (i + j + 1) ∧
            it.InstanceID = itoa (instID + j) ∧ it.ResourceType = 17 ∧ it.Parent = ideID) := by
  intro l
  induction l with
  | nil =>
    intro i instID _
    exact ⟨[], [], [], by simp [processHardDrives], rfl, rfl, rfl,
      fun j hj => absurd hj (by simp)⟩
  | cons hd rest ih =>
    intro i instID hall
    obtain ⟨fields, p, hfld, hpath, hstat⟩ := hall hd (List.mem_cons_self hd rest)
    obtain ⟨size, hsize⟩ := Option.isSome_iff_exists.mp hstat
    obtain ⟨fs, ds, its, hok, hlf, hld, hli, hidx⟩ :=
      ih (i + 1) (instID + 1) (fun x hx => hall x (List.mem_cons_of_mem _ hx))
    subst hfld
    have hdp : drivePathRaw fields = p := by
      unfold drivePathRaw
      rw [hpath]
    refine ⟨{ ID := "file" ++ itoa (i + 1), Href := rawDiskFileName p, Size := size } :: fs,
      { Capacity := size, CapacityAllocationUnits := "byte",
        DiskID := "vmdisk" ++ itoa (i + 1), FileRef := "file" ++ itoa (i + 1),
        Format := "http://www.vmware.com/interfaces/specifications/vmdk.html#streamOptimized" } :: ds,
      { InstanceID := itoa instID, ResourceType := 17,
        ElementName := "Hard Disk " ++ itoa (i + 1), Description := "Hard Disk",
        HostResource := "ovf:/disk/" ++ ("vmdisk" ++ itoa (i + 1)),
        Parent := ideID, AddressOnParent := itoa i } :: its, ?_, ?_, ?_, ?_, ?_⟩
    · simp only [processHardDrives, hdp, hsize, hok, List.length_cons]
      rw [show instID + 1 + rest.length = instID + (rest.length + 1) from by omega]
    · simp [hlf]
    · simp [hld]
    · simp [hli]
    · intro j hj
      rcases j with _ | j'
      · exact ⟨{ ID := "file" ++ itoa (i + 1), Href := rawDiskFileName p, Size := size },
          { Capacity := size, CapacityAllocationUnits := "byte",
            DiskID := "vmdisk" ++ itoa (i + 1), FileRef := "file" ++ itoa (i + 1),
            Format := "http://www.vmware.com/interfaces/specifications/vmdk.html#streamOptimized" },
          { InstanceID := itoa instID, ResourceType := 17,
            ElementName := "Hard Disk " ++ itoa (i + 1), Description := "Hard Disk",
            HostResource := "ovf:/disk/" ++ ("vmdisk" ++ itoa (i + 1)),
            Parent := ideID, AddressOnParent := itoa i },
          by simp, by simp, by simp, rfl, rfl, rfl, rfl, rfl⟩
      · obtain ⟨fl, dk, it, h1, h2, h3, h4, h5, h6, h7, h8⟩ :=
          hidx j' (by simpa using Nat.lt_of_succ_lt_succ hj)
        have e1 : i + 1 + j' + 1 = i + (j' + 1) + 1 := by omega
        have e2 : instID + 1 + j' = instID + (j' + 1) := by omega
        exact ⟨fl, dk, it, by simpa using h1, by simpa using h2, by simpa using h3,
          by rw [h4, e1], by rw [h5, e1], by rw [h6, e2], h7, h8⟩

theorem processAdapters_spec :
    ∀ (l : List GoValue) (i instID : Nat),
      (∀ a ∈ l, ∃ fields, a = GoValue.obj fields) →
      (processAdapters l i instID).1.length = l.length ∧
      (processAdapters l i instID).2.length = l.length ∧
      ∀ j, j < l.length →
        ∃ it, (processAdapters l i instID).2[j]? = some it ∧
          it.InstanceID = itoa (instID + j) ∧ it.ResourceType = 10 := by
  intro l
  induction l with
  | nil =>
    intro i instID _
    exact ⟨rfl, rfl, fun j hj => absurd hj (by simp)⟩
  | cons a rest ih =>
    intro i instID hall
    obtain ⟨fields, hfld⟩ := hall a (List.mem_cons_self a rest)
    subst hfld
    obtain ⟨hl1, hl2, hidx⟩ :=
      ih (i + 1) (instID + 1) (fun x hx => hall x (List.mem_cons_of_mem _ hx))
    refine ⟨?_, ?_, ?_⟩
    · simp [processAdapters, hl1]
    · simp [processAdapters, hl2]
    · intro j hj
      rcases j with _ | j'
      · exact ⟨{ InstanceID := itoa instID, ResourceType := 10, ResourceSubType := "E1000",
                 ElementName := "Ethernet " ++ itoa (i + 1),
                 Description := "E1000 ethernet adapter on \"" ++
                   (match lookupField fields "Name" with
                    | some (GoValue.str n) => if n = "" then "VM Network " ++ itoa (i + 1) else n
                    | _ => "VM Network " ++ itoa (i + 1)) ++ "\"",
                 Connection :=
                   (match lookupField fields "Name" with
                    | some (GoValue.str n) => if n = "" then "VM Network " ++ itoa (i + 1) else n
                    | _ => "VM Network " ++ itoa (i + 1)),
                 AutomaticAllocation := some true }, by simp [processAdapters], rfl, rfl⟩
      · obtain ⟨it, h1, h2, h3⟩ := hidx j' (by simpa using Nat.lt_of_succ_lt_succ hj)
        have e2 : instID + 1 + j' = instID + (j' + 1) := by omega
        exact ⟨it, by simpa [processAdapters] using h1, by rw [h2, e2], h3⟩

/-! ### Projection facts about the assembled envelope -/

theorem buildEnvelope_items_zero (vmMap : List (String × GoValue)) (f : List File)
    (d : List Disk) (di : List Item) (nets : List Network) (ni : List Item) :
    (buildEnvelope vmMap f d di nets ni).VirtualSystem.VirtualHardware.Items[0]? =
      some (cpuItemOf vmMap) := rfl

theorem buildEnvelope_items_one (vmMap : List (String × GoValue)) (f : List File)
    (d : List Disk) (di : List Item) (nets : List Network) (ni : List Item) :
    (buildEnvelope vmMap f d di nets ni).VirtualSystem.VirtualHardware.Items[1]? =
      some (memItemOf vmMap) := rfl

theorem buildEnvelope_items_two (vmMap : List (String × GoValue)) (f : List File)
    (d : List Disk) (di : List Item) (nets : List Network) (ni : List Item) :
    (buildEnvelope vmMap f d di nets ni).VirtualSystem.VirtualHardware.Items[2]? =
      some ideItem := by
  show (cpuItemOf vmMap :: memItemOf vmMap :: ideItem :: (di ++ ni))[0 + 1 + 1]? = some ideItem
  rw [List.getElem?_cons_succ, List.getElem?_cons_succ, List.getElem?_cons_zero]

theorem buildEnvelope_items_getElem3 (vmMap : List (String × GoValue)) (f : List File)
    (d : List Disk) (di : List Item) (nets : List Network) (ni : List Item) (n : Nat) :
    (buildEnvelope vmMap f d di nets ni).VirtualSystem.VirtualHardware.Items[n + 3]? =
      (di ++ ni)[n]? := by
  show (cpuItemOf vmMap :: memItemOf vmMap :: ideItem :: (di ++ ni))[n + 1 + 1 + 1]? =
    (di ++ ni)[n]?
  rw [List.getElem?_cons_succ, List.getElem?_cons_succ, List.getElem?_cons_succ]

theorem buildEnvelope_items_length (vmMap : List (String × GoValue)) (f : List File)
    (d : List Disk) (di : List Item) (nets : List Network) (ni : List Item) :
    (buildEnvelope vmMap f d di nets ni).VirtualSystem.VirtualHardware.Items.length =
      (di ++ ni).length + 3 := rfl

theorem buildEnvelope_files (vmMap : List (String × GoValue)) (f : List File)
    (d : List Disk) (di : List Item) (nets : List Network) (ni : List Item) :
    (buildEnvelope vmMap f d di nets ni).References.Files = f := rfl

theorem buildEnvelope_disks (vmMap : List (String × GoValue)) (f : List File)
    (d : List Disk) (di : List Item) (nets : List Network) (ni : List Item) :
    (buildEnvelope vmMap f d di nets ni).DiskSection.Disks = d := rfl

/-- C2: for every VM record compiled by `FormatFromHyperV` whose hard-drive
entries are maps with a string `Path` whose derived .raw file stats
successfully and whose network-adapter entries are maps, the compilation
succeeds and the hardware items carry the strictly increasing instance ids
1, 2, 3, ... in the fixed order CPU (resource type 3, id 1), Memory (type
4, id 2), IDE controller (type 5, id 3), one disk item (type 17) per hard
drive in list order, then one Ethernet item (type 10) per adapter in list
order, and every disk item's `Parent` equals the IDE controller's instance
id. -/
theorem formatFromHyperV_instance_id_order
    (stat : String → Option Int) (wd : String) (vmMap : List (String × GoValue))
    (hdrives : ∀ hd ∈ hardDrivesOf vmMap, ∃ fields p, hd = GoValue.obj fields ∧
      lookupField fields "Path" = some (GoValue.str p) ∧
      (stat (goJoin wd (rawDiskFileName p))).isSome = true)
    (hadapters : ∀ a ∈ adaptersOf vmMap, ∃ fields, a = GoValue.obj fields) :
    ∃ env, formatFromHyperV stat wd (GoValue.obj vmMap) = .ok env ∧
      env.VirtualSystem.VirtualHardware.Items.length =
        3 + (hardDrivesOf vmMap).length + (adaptersOf vmMap).length ∧
      (∀ k, k < env.VirtualSystem.VirtualHardware.Items.length →
        ∃ it, env.VirtualSystem.VirtualHardware.Items[k]? = some it ∧
          it.InstanceID = itoa (k + 1)) ∧
      (∃ it, env.VirtualSystem.VirtualHardware.Items[0]? = some it ∧
        it.ResourceType = 3) ∧
      (∃ it, env.VirtualSystem.VirtualHardware.Items[1]? = some it ∧
        it.ResourceType = 4) ∧
      (∃ it, env.VirtualSystem.VirtualHardware.Items[2]? = some it ∧
        it.ResourceType = 5 ∧ it.InstanceID = itoa 3) ∧
      (∀ j, j < (hardDrivesOf vmMap).length →
        ∃ it, env.VirtualSystem.VirtualHardware.Items[3 + j]? = some it ∧
          it.ResourceType = 17 ∧ it.Parent = itoa 3) ∧
      (∀ j, j < (adaptersOf vmMap).length →
        ∃ it,
          env.VirtualSystem.VirtualHardware.Items[3 + (hardDrivesOf vmMap).length + j]? =
            some it ∧ it.ResourceType = 10) := by
  obtain ⟨fs, ds, its, hok, hlf, hld, hli, hidx⟩ :=
    processHardDrives_ok stat wd (itoa 3) (hardDrivesOf vmMap) 0 4 hdrives
  obtain ⟨hal1, hal2, haidx⟩ :=
    processAdapters_spec (adaptersOf vmMap) 0 (4 + (hardDrivesOf vmMap).length) hadapters
  refine ⟨buildEnvelope vmMap fs ds its
      (processAdapters (adaptersOf vmMap) 0 (4 + (hardDrivesOf vmMap).length)).1
      (processAdapters (adaptersOf vmMap) 0 (4 + (hardDrivesOf vmMap).length)).2,
    ?_, ?_, ?_, ?_, ?_, ?_, ?_, ?_⟩
  · simp only [formatFromHyperV, hok]
  · rw [buildEnvelope_items_length, List.length_append, hli, hal2]
    omega
  · intro k hk
    rw [buildEnvelope_items_length, List.length_append, hli, hal2] at hk
    rcases k with _ | _ | _ | k'
    · exact ⟨cpuItemOf vmMap, buildEnvelope_items_zero vmMap fs ds its _ _, rfl⟩
    · exact ⟨memItemOf vmMap, buildEnvelope_items_one vmMap fs ds its _ _, rfl⟩
    · exact ⟨ideItem, buildEnvelope_items_two vmMap fs ds its _ _, rfl⟩
    · rw [buildEnvelope_items_getElem3]
      rcases Nat.lt_or_ge k' (hardDrivesOf vmMap).length with hlt | hge
      · rw [List.getElem?_append_left (by omega)]
        obtain ⟨fl, dk, it, -, -, h3, -, -, h6, -, -⟩ := hidx k' hlt
        exact ⟨it, h3, by rw [h6]; exact congrArg itoa (by omega)⟩
      · rw [List.getElem?_append_right (by omega), hli]
        obtain ⟨it, ha, hb, -⟩ := haidx (k' - (hardDrivesOf vmMap).length) (by omega)
        exact ⟨it, ha, by rw [hb]; exact congrArg itoa (by omega)⟩
  · exact ⟨cpuItemOf vmMap, buildEnvelope_items_zero vmMap fs ds its _ _, rfl⟩
  · exact ⟨memItemOf vmMap, buildEnvelope_items_one vmMap fs ds its _ _, rfl⟩
  · exact ⟨ideItem, buildEnvelope_items_two vmMap fs ds its _ _, rfl, rfl⟩
  · intro j hj
    rw [show 3 + j = j + 3 from by omega, buildEnvelope_items_getElem3,
      List.getElem?_append_left (by omega)]
    obtain ⟨fl, dk, it, -, -, h3, -, -, -, h7, h8⟩ := hidx j hj
    exact ⟨it, h3, h7, h8⟩
  · intro j hj
    rw [show 3 + (hardDrivesOf vmMap).length + j = (hardDrivesOf vmMap).length + j + 3
        from by omega,
      buildEnvelope_items_getElem3, List.getElem?_append_right (by omega), hli,
      show (hardDrivesOf vmMap).length + j - (hardDrivesOf vmMap).length = j from by omega]
    obtain ⟨it, ha, -, hc⟩ := haidx j (by omega)
    exact ⟨it, ha, hc⟩

/-- A concrete one-disk, one-adapter VM map used to witness the compiler
theorems. -/
def sampleVmMap : List (String × GoValue) :=
  [("HardDrives", GoValue.list [GoValue.obj [("Path", GoValue.str "C:\\vm\\disk1.vhdx")]]),
   ("NetworkAdapters", GoValue.list [GoValue.obj [("Name", GoValue.str "LAN")]])]

/-- Witness for C2 at a concrete one-disk, one-adapter VM record with an
always-succeeding size resolver. -/
theorem formatFromHyperV_instance_id_order_witness :
    ∃ env, formatFromHyperV (fun _ => some 42) "/out" (GoValue.obj sampleVmMap) = .ok env ∧
      env.VirtualSystem.VirtualHardware.Items.length =
        3 + (hardDrivesOf sampleVmMap).length + (adaptersOf sampleVmMap).length ∧
      (∀ k, k < env.VirtualSystem.VirtualHardware.Items.length →
        ∃ it, env.VirtualSystem.VirtualHardware.Items[k]? = some it ∧
          it.InstanceID = itoa (k + 1)) ∧
      (∃ it, env.VirtualSystem.VirtualHardware.Items[0]? = some it ∧
        it.ResourceType = 3) ∧
      (∃ it, env.VirtualSystem.VirtualHardware.Items[1]? = some it ∧
        it.ResourceType = 4) ∧
      (∃ it, env.VirtualSystem.VirtualHardware.Items[2]? = some it ∧
        it.ResourceType = 5 ∧ it.InstanceID = itoa 3) ∧
      (∀ j, j < (hardDrivesOf sampleVmMap).length →
        ∃ it, env.VirtualSystem.VirtualHardware.Items[3 + j]? = some it ∧
          it.ResourceType = 17 ∧ it.Parent = itoa 3) ∧
      (∀ j, j < (adaptersOf sampleVmMap).length →
        ∃ it,
          env.VirtualSystem.VirtualHardware.Items[3 + (hardDrivesOf sampleVmMap).length + j]? =
            some it ∧ it.ResourceType = 10) :=
  formatFromHyperV_instance_id_order (fun _ => some 42) "/out" sampleVmMap
    (by
      intro hd hmem
      rw [show hardDrivesOf sampleVmMap =
        [GoValue.obj [("Path", GoValue.str "C:\\vm\\disk1.vhdx")]] from rfl,
        List.mem_singleton] at hmem
      subst hmem
      exact ⟨_, "C:\\vm\\disk1.vhdx", rfl, rfl, rfl⟩)
    (by
      intro a hmem
      rw [show adaptersOf sampleVmMap =
        [GoValue.obj [("Name", GoValue.str "LAN")]] from rfl,
        List.mem_singleton] at hmem
      subst hmem
      exact ⟨_, rfl⟩)

theorem string_append_left_cancel {a b c : String} (h : a ++ b = a ++ c) : b = c := by
  apply String.ext
  have hd := congrArg String.data h
  rw [String.data_append, String.data_append] at hd
  exact List.append_cancel_left hd

/-- C3: for every VM record whose hard-drive entries are maps with a string
`Path` whose derived .raw file stats successfully, the compilation succeeds
and yields exactly one `File` entry and one `Disk` entry per drive, in drive
order, and each disk's `FileRef` equals the `ID` of exactly one `File`
entry of the document, namely the one at the same index. -/
theorem formatFromHyperV_disk_file_pairing
    (stat : String → Option Int) (wd : String) (vmMap : List (String × GoValue))
    (hdrives : ∀ hd ∈ hardDrivesOf vmMap, ∃ fields p, hd = GoValue.obj fields ∧
      lookupField fields "Path" = some (GoValue.str p) ∧
      (stat (goJoin wd (rawDiskFileName p))).isSome = true) :
    ∃ env, formatFromHyperV stat wd (GoValue.obj vmMap) = .ok env ∧
      env.References.Files.length = (hardDrivesOf vmMap).length ∧
      env.DiskSection.Disks.length = (hardDrivesOf vmMap).length ∧
      ∀ j, j < (hardDrivesOf vmMap).length →
        ∃ dk fl, env.DiskSection.Disks[j]? = some dk ∧
          env.References.Files[j]? = some fl ∧ dk.FileRef = fl.ID ∧
          ∀ j', j' < (hardDrivesOf vmMap).length →
            ∀ fl', env.References.Files[j']? = some fl' → fl'.ID = dk.FileRef → j' = j := by
  obtain ⟨fs, ds, its, hok, hlf, hld, hli, hidx⟩ :=
    processHardDrives_ok stat wd (itoa 3) (hardDrivesOf vmMap) 0 4 hdrives
  refine ⟨buildEnvelope vmMap fs ds its
      (processAdapters (adaptersOf vmMap) 0 (4 + (hardDrivesOf vmMap).length)).1
      (processAdapters (adaptersOf vmMap) 0 (4 + (hardDrivesOf vmMap).length)).2,
    ?_, ?_, ?_, ?_⟩
  · simp only [formatFromHyperV, hok]
  · rw [buildEnvelope_files]
    exact hlf
  · rw [buildEnvelope_disks]
    exact hld
  · intro j hj
    obtain ⟨fl, dk, it, h1, h2, -, h4, h5, -, -, -⟩ := hidx j hj
    refine ⟨dk, fl, ?_, ?_, ?_, ?_⟩
    · rw [buildEnvelope_disks]
      exact h2
    · rw [buildEnvelope_files]
      exact h1
    · rw [h5, h4]
    · intro j' hj' fl' hfl' hid
      rw [buildEnvelope_files] at hfl'
      obtain ⟨fl2, dk2, it2, h1', -, -, h4', -, -, -, -⟩ := hidx j' hj'
      have hfl2 : fl' = fl2 := by
        rw [hfl'] at h1'
        exact Option.some.inj h1'
      have heq : "file" ++ itoa (0 + j' + 1) = "file" ++ itoa (0 + j + 1) := by
        rw [← h4', ← h5, ← hfl2]
        exact hid
      have := itoa_inj (string_append_left_cancel heq)
      omega

/-- Witness for C3 at the concrete one-disk VM record. -/
theorem formatFromHyperV_disk_file_pairing_witness :
    ∃ env, formatFromHyperV (fun _ => some 42) "/out" (GoValue.obj sampleVmMap) = .ok env ∧
      env.References.Files.length = (hardDrivesOf sampleVmMap).length ∧
      env.DiskSection.Disks.length = (hardDrivesOf sampleVmMap).length ∧
      ∀ j, j < (hardDrivesOf sampleVmMap).length →
        ∃ dk fl, env.DiskSection.Disks[j]? = some dk ∧
          env.References.Files[j]? = some fl ∧ dk.FileRef = fl.ID ∧
          ∀ j', j' < (hardDrivesOf sampleVmMap).length →
            ∀ fl', env.References.Files[j']? = some fl' → fl'.ID = dk.FileRef → j' = j :=
  formatFromHyperV_disk_file_pairing (fun _ => some 42) "/out" sampleVmMap
    (by
      intro hd hmem
      rw [show hardDrivesOf sampleVmMap =
        [GoValue.obj [("Path", GoValue.str "C:\\vm\\disk1.vhdx")]] from rfl,
        List.mem_singleton] at hmem
      subst hmem
      exact ⟨_, "C:\\vm\\disk1.vhdx", rfl, rfl, rfl⟩)

/-! ## Mapping assembler: network discovery (`discoverNetworkMappings`)

The glob result and the file reader are external collaborators and are
passed in as arguments (`ovfFiles` is the glob result list; a `none` from
`readFile` models a read error, which aborts the extraction as in the
source).  The `NetworkMapping` struct declaration is not among the provided
sources and is reconstructed from its use. -/

/-- The configured default source network name (source constant). -/
def sourceNetworkName : String := "Network Adapter"

/-- The configured destination network type (source constant). -/
def destNetworkType : String := "pod"

/-- One source-network to destination pairing of the network map. -/
structure NetworkMapping where
  SourceID : String
  SourceName : String
  DestinationType : String

/-- The pool of previously confirmed network identifiers, in discovery
order. -/
def knownNetworkIDs : List String := ["d722072e029481b6ca769f17e8fc112a9f30"]

/-- UTF-8 bytes of one character. -/
def utf8BytesChar (c : Char) : List Nat :=
  let n := c.toNat
  if n < 128 then [n]
  else if n < 2048 then [192 + n / 64, 128 + n % 64]
  else if n < 65536 then [224 + n / 4096, 128 + n / 64 % 64, 128 + n % 64]
  else [240 + n / 262144, 128 + n / 4096 % 64, 128 + n / 64 % 64, 128 + n % 64]

/-- UTF-8 bytes of a string (`[]byte(s)` in Go). -/
def utf8Bytes (s : String) : List Nat :=
  s.data.foldr (fun c acc => utf8BytesChar c ++ acc) []

/-- `generateNetworkID`: a pooled identifier while the index is within the
confirmed pool, else the derived Forklift hash of the network name (used as
both object and key), else — if the gob encoding fails — a plain SHA-256 of
the name's bytes truncated to 32 characters. -/
def generateNetworkID (gobStr : String → Option (List Nat)) (networkName : String)
    (index : Nat) : String :=
  if h : index < knownNetworkIDs.length then knownNetworkIDs.get ⟨index, h⟩
  else
    match generateForkliftUUID gobStr networkName networkName with
    | some id => id
    | none => String.mk ((hexEncodeChars (sha256 (utf8Bytes networkName))).take 32)

/-- First index at which `sub` occurs in the character list, scanning left
to right (`strings.Index`; `none` models Go's `-1`). -/
def strIndexAux (sub : List Char) : List Char → Nat → Option Nat
  | [], i => if sub.isPrefixOf [] then some i else none
  | c :: rest, i =>
    if sub.isPrefixOf (c :: rest) then some i
    else strIndexAux sub rest (i + 1)

/-- The network name parsed from one OVF line, when the line holds a
`<Network ovf:name="..."` occurrence (source lines 713–725). -/
def extractNetworkName (line : String) : Option String :=
  if goContains line "<Network" && goContains line "ovf:name=" then
    match strIndexAux ("ovf:name=\"").data line.data 0 with
    | none => none
    | some start =>
      let rest := line.data.drop (start + 10)
      match strIndexAux ['\"'] rest 0 with
      | none => none
      | some e => some (String.mk (rest.take e))
  else none

/-- `strings.Split(s, "\n")` at the character level (the reversed
accumulator holds the current line). -/
def splitOnNewline : List Char → List Char → List String
  | acc, [] => [String.mk acc.reverse]
  | acc, c :: rest =>
    if c = '\n' then String.mk acc.reverse :: splitOnNewline [] rest
    else splitOnNewline (c :: acc) rest

/-- The lines of a string, split on newline characters. -/
def goSplitLines (s : String) : List String :=
  splitOnNewline [] s.data

/-- `extractNetworksFromOVF`: the network names of all lines, in line
order. -/
def extractNetworksFromOVF (content : String) : List String :=
  (goSplitLines content).foldr
    (fun line acc =>
      match extractNetworkName line with
      | some n => n :: acc
      | none => acc) []

/-- `discoverNetworkMappings`: read the first OVF file, extract its network
names, pair each with a generated identifier and the destination type, and
fall back to the single synthetic default mapping when none were found. -/
def discoverNetworkMappings (gobStr : String → Option (List Nat)) (ovfFiles : List String)
    (readFile : String → Option String) : Except String (List NetworkMapping) :=
  match ovfFiles with
  | [] => .error "no OVF files found in output directory"
  | ovfFile :: _ =>
    match readFile ovfFile with
    | none => .error "failed to extract networks from OVF"
    | some content =>
      let networks := extractNetworksFromOVF content
      let networkMappings := networks.enum.map
        (fun pair =>
          { SourceID := generateNetworkID gobStr pair.2 pair.1,
            SourceName := pair.2, DestinationType := destNetworkType : NetworkMapping })
      if networkMappings.isEmpty then
        .ok [{ SourceID := "d722072e029481b6ca769f17e8fc112a9f30",
               SourceName := sourceNetworkName, DestinationType := destNetworkType }]
      else .ok networkMappings

/-- C7: for every OVF descriptor content with zero Network entries, network
discovery returns exactly one synthetic default mapping, carrying the
configured default source name and destination type "pod" — never an empty
list. -/
theorem discoverNetworkMappings_empty_default
    (gobStr : String → Option (List Nat)) (ovfFiles : List String)
    (readFile : String → Option String) (f : String) (rest : List String)
    (hfiles : ovfFiles = f :: rest) (content : String) (hread : readFile f = some content)
    (hnone : extractNetworksFromOVF content = []) :
    discoverNetworkMappings gobStr ovfFiles readFile =
      .ok [{ SourceID := "d722072e029481b6ca769f17e8fc112a9f30",
             SourceName := sourceNetworkName, DestinationType := destNetworkType }] ∧
    sourceNetworkName = "Network Adapter" ∧ destNetworkType = "pod" := by
  subst hfiles
  refine ⟨?_, rfl, rfl⟩
  simp only [discoverNetworkMappings, hread, hnone]
  rfl

/-- Witness for C7 at a concrete empty descriptor. -/
theorem discoverNetworkMappings_empty_default_witness :
    discoverNetworkMappings (fun _ => none) ["vm.ovf"] (fun _ => some "") =
      .ok [{ SourceID := "d722072e029481b6ca769f17e8fc112a9f30",
             SourceName := sourceNetworkName, DestinationType := destNetworkType }] ∧
    sourceNetworkName = "Network Adapter" ∧ destNetworkType = "pod" :=
  discoverNetworkMappings_empty_default (fun _ => none) ["vm.ovf"] (fun _ => some "")
    "vm.ovf" [] rfl "" rfl (by decide)

/-! ## Progress rendering and the migration monitor (`unstructured` status)

The status object fetched from the cluster is a `GoValue`; the
`unstructured.Nested*` accessors walk nested maps and default exactly as
the source's callers do (found/error flags are ignored there, yielding the
Go zero values). -/

/-- Path lookup through nested dynamic maps. -/
def nestedValue : GoValue → List String → Option GoValue
  | v, [] => some v
  | GoValue.obj fields, k :: ks =>
    match lookupField fields k with
    | some v => nestedValue v ks
    | none => none
  | _, _ :: _ => none

/-- `unstructured.NestedString` with the ignored found/error flags folded
into the zero-value default. -/
def nestedString (v : GoValue) (path : List String) : String :=
  match nestedValue v path with
  | some (GoValue.str s) => s
  | _ => ""

/-- `unstructured.NestedInt64`, defaulting to 0. -/
def nestedInt64 (v : GoValue) (path : List String) : Int :=
  match nestedValue v path with
  | some (GoValue.num n) => n
  | _ => 0

/-- `unstructured.NestedSlice`; `none` covers both the not-found and the
wrong-type (error) outcomes, which the callers treat alike. -/
def nestedSlice (v : GoValue) (path : List String) : Option (List GoValue) :=
  match nestedValue v path with
  | some (GoValue.list l) => some l
  | _ => none

/-- `unstructured.NestedMap`, similarly. -/
def nestedMap (v : GoValue) (path : List String) : Option (List (String × GoValue)) :=
  match nestedValue v path with
  | some (GoValue.obj f) => some f
  | _ => none

/-- 64-bit wrap-around of an integer (Go `int64` arithmetic). -/
def wrap64 (x : Int) : Int :=
  (x + 9223372036854775808) % 18446744073709551616 - 9223372036854775808

/-- Go integer division: truncation toward zero. -/
def goQuot (a b : Int) : Int :=
  a.tdiv b

/-- The per-step percentage of the progress renderer (source lines
535–541): "?" unless `total > 0`, in which case `completed*100/total` in
64-bit Go arithmetic, and forced to "100%" whenever the step phase is
"Completed". -/
def stepPercentage (stepPhase : String) (completed total : Int) : String :=
  let p :=
    if total > 0 then intToString (goQuot (wrap64 (completed * 100)) total) ++ "%" else "?"
  if stepPhase = "Completed" then "100%" else p

/-- One pipeline-step line of the rendered snapshot (source lines
522–543); non-map steps are skipped. -/
def renderStep (step : GoValue) : String :=
  match step with
  | GoValue.obj _ =>
    let stepName := nestedString step ["name"]
    let stepPhase := nestedString step ["phase"]
    let progressFields :=
      match nestedMap step ["progress"] with
      | some m => m
      | none => []
    let completed := nestedInt64 (GoValue.obj progressFields) ["completed"]
    let total := nestedInt64 (GoValue.obj progressFields) ["total"]
    "  Step: " ++ stepName ++ " | " ++ stepPhase ++ " | Progress: " ++
      stepPercentage stepPhase completed total ++ "\n"
  | _ => ""

/-- One per-VM block of the rendered snapshot (source lines 508–546);
non-map entries are skipped.  The VM header literal reproduces the source
file's bytes. -/
def renderVM (v : GoValue) : String :=
  match v with
  | GoValue.obj _ =>
    let name := nestedString v ["name"]
    let phase := nestedString v ["phase"]
    let steps :=
      match nestedSlice v ["pipeline"] with
      | some l => String.join (l.map renderStep)
      | none => ""
    "üñ•Ô∏è VM: " ++ name ++ "\n" ++ "   Phase: " ++ phase ++ "\n" ++ steps ++ "\n"
  | _ => ""

/-- `extractProgressPercentage`: the rendered progress snapshot for a
fetched migration status object. -/
def extractProgressPercentage (migration : GoValue) : String :=
  match nestedSlice migration ["status", "vms"] with
  | none => "No VMs found in migration status"
  | some [] => "No VMs found in migration status"
  | some vms => String.join (vms.map renderVM)

/-- C8 counterexample: with a negative completed count the renderer shows
the quotient truncated toward zero, not the floor: completed `-1`, total
`3` renders "-33%" while floor(-100/3) is -34. -/
theorem stepPercentage_floor_counterexample :
    stepPercentage "Transferring" (-1) 3 = "-33%" ∧
    intToString (Int.ediv (-1 * 100) 3) ++ "%" = "-34%" := by
  exact ⟨by decide, by decide⟩

/-- C8 (amended): a step whose phase is "Completed" renders "100%"
regardless of the counts; otherwise with `total > 0` it renders
`completed*100/total` rounded toward zero (Go integer division), which for
`0 ≤ completed` (with an unoverflowed product) is exactly
floor(completed*100/total); otherwise it renders "?". -/
theorem stepPercentage_spec (stepPhase : String) (completed total : Int) :
    (stepPhase = "Completed" → stepPercentage stepPhase completed total = "100%") ∧
    (stepPhase ≠ "Completed" → 0 < total → 0 ≤ completed →
      completed * 100 < 9223372036854775808 →
      stepPercentage stepPhase completed total =
        intToString (Int.ediv (completed * 100) total) ++ "%") ∧
    (stepPhase ≠ "Completed" → total ≤ 0 →
      stepPercentage stepPhase completed total = "?") := by
  refine ⟨?_, ?_, ?_⟩
  · intro h
    simp [stepPercentage, h]
  · intro hph ht hc hlt
    have hw : wrap64 (completed * 100) = completed * 100 := by
      unfold wrap64
      rw [Int.emod_eq_of_lt (by omega) (by omega)]
      omega
    have hdiv : goQuot (completed * 100) total = Int.ediv (completed * 100) total := by
      unfold goQuot
      rw [Int.tdiv_eq_ediv (by omega) (by omega)]
      rfl
    simp [stepPercentage, hph, ht, hw, hdiv]
  · intro hph ht
    simp [stepPercentage, hph, show ¬(0 < total) from by omega]

/-- Witness for the amended C8 at the spec's example counts 50/200. -/
theorem stepPercentage_spec_witness :
    stepPercentage "Transferring" 50 200 =
      intToString (Int.ediv (50 * 100) 200) ++ "%" :=
  (stepPercentage_spec "Transferring" 50 200).2.1 (by decide) (by decide) (by decide)
    (by decide)

/-- Whether one condition record is a `{type: ty, status: "True"}` match
(the loop body shared by `isMigrationSucceeded` and `isMigrationFailed`;
Go's `interface{}` equality against a string succeeds exactly on equal
string values). -/
def condMatches (ty : String) (c : GoValue) : Bool :=
  match c with
  | GoValue.obj cond =>
    match lookupField cond "type", lookupField cond "status" with
    | some (GoValue.str t), some (GoValue.str s) => t == ty && s == "True"
    | _, _ => false
  | _ => false

/-- `isMigrationSucceeded` (source lines 609–630). -/
def isMigrationSucceeded (migration : GoValue) : Bool :=
  match nestedMap migration ["status"] with
  | none => false
  | some status =>
    match nestedSlice (GoValue.obj status) ["conditions"] with
    | none => false
    | some conditions => conditions.any (condMatches "Succeeded")

/-- `isMigrationFailed` (source lines 632–653). -/
def isMigrationFailed (migration : GoValue) : Bool :=
  match nestedMap migration ["status"] with
  | none => false
  | some status =>
    match nestedSlice (GoValue.obj status) ["conditions"] with
    | none => false
    | some conditions => conditions.any (condMatches "Failed")

/-- The status object carries a condition record of type `ty` with status
"True". -/
def CondPresent (migration : GoValue) (ty : String) : Prop :=
  ∃ status conditions, nestedMap migration ["status"] = some status ∧
    nestedSlice (GoValue.obj status) ["conditions"] = some conditions ∧
    ∃ c ∈ conditions, ∃ cond, c = GoValue.obj cond ∧
      lookupField cond "type" = some (GoValue.str ty) ∧
      lookupField cond "status" = some (GoValue.str "True")

/-- `waitForMigrationComplete` (source lines 470–499): the polling loop,
with the timeout context modelled as a budget of remaining ticks and the
per-tick fetch as a function of the tick index; a fetch error aborts, a
Succeeded condition ends the run successfully (checked before Failed), a
Failed condition yields the failure error, and an exhausted budget yields
the timeout error. -/
def waitForMigrationComplete (migrationName : String)
    (fetch : Nat → Except String GoValue) : Nat → Nat → Except String Unit
  | _, 0 => .error ("timeout waiting for migration " ++ migrationName ++ " to complete")
  | i, fuel + 1 =>
    match fetch i with
    | .error e => .error ("failed to get migration: " ++ e)
    | .ok migration =>
      if isMigrationSucceeded migration then .ok ()
      else if isMigrationFailed migration then .error "migration failed"
      else waitForMigrationComplete migrationName fetch (i + 1) fuel

theorem waitForMigrationComplete_succ (name : String)
    (fetch : Nat → Except String GoValue) (i fuel : Nat) :
    waitForMigrationComplete name fetch i (fuel + 1) =
      match fetch i with
      | .error e => .error ("failed to get migration: " ++ e)
      | .ok migration =>
        if isMigrationSucceeded migration then .ok ()
        else if isMigrationFailed migration then .error "migration failed"
        else waitForMigrationComplete name fetch (i + 1) fuel := rfl

theorem condMatches_iff (ty : String) (c : GoValue) :
    condMatches ty c = true ↔
      ∃ cond, c = GoValue.obj cond ∧ lookupField cond "type" = some (GoValue.str ty) ∧
        lookupField cond "status" = some (GoValue.str "True") := by
  cases c with
  | obj cond =>
    simp only [condMatches]
    constructor
    · intro h
      split at h
      · rename_i t s heq1 heq2
        rw [Bool.and_eq_true, beq_iff_eq, beq_iff_eq] at h
        obtain ⟨rfl, rfl⟩ := h
        exact ⟨cond, rfl, heq1, heq2⟩
      · simp at h
    · rintro ⟨cond2, hc, ht, hs⟩
      cases hc
      rw [ht, hs]
      simp
  | str s => simp [condMatches]
  | num n => simp [condMatches]
  | boolean b => simp [condMatches]
  | null => simp [condMatches]
  | list l => simp [condMatches]

theorem any_condMatches_iff (ty : String) (migration : GoValue) :
    (match nestedMap migration ["status"] with
     | none => false
     | some status =>
       match nestedSlice (GoValue.obj status) ["conditions"] with
       | none => false
       | some conditions => conditions.any (condMatches ty)) = true ↔
      CondPresent migration ty := by
  cases hm : nestedMap migration ["status"] with
  | none => simp [CondPresent, hm]
  | some status =>
    simp only []
    cases hc : nestedSlice (GoValue.obj status) ["conditions"] with
    | none => simp [CondPresent, hm, hc]
    | some conditions =>
      simp only []
      rw [List.any_eq_true]
      constructor
      · rintro ⟨c, hmem, hmatch⟩
        exact ⟨status, conditions, hm, hc, c, hmem, (condMatches_iff ty c).mp hmatch⟩
      · rintro ⟨st2, cond2, hst, hcond, c, hmem, hrest⟩
        rw [hm] at hst
        obtain rfl := Option.some.inj hst
        rw [hc] at hcond
        obtain rfl := Option.some.inj hcond
        exact ⟨c, hmem, (condMatches_iff ty c).mpr hrest⟩

/-- C9: the monitor classifies a status as Succeeded exactly when it holds
a `{type: "Succeeded", status: "True"}` condition and as Failed exactly when
it holds a `{type: "Failed", status: "True"}` condition; in the polling loop
Succeeded is checked first, a Failed-only status yields the failure error,
a run whose statuses never carry either condition exhausts its deadline
budget and yields the timeout error, and that timeout error differs from
the failure error. -/
theorem migration_monitor_spec :
    (∀ m : GoValue, isMigrationSucceeded m = true ↔ CondPresent m "Succeeded") ∧
    (∀ m : GoValue, isMigrationFailed m = true ↔ CondPresent m "Failed") ∧
    (∀ (name : String) (fetch : Nat → Except String GoValue) (i fuel : Nat) (m : GoValue),
      fetch i = .ok m → isMigrationSucceeded m = true →
      waitForMigrationComplete name fetch i (fuel + 1) = .ok ()) ∧
    (∀ (name : String) (fetch : Nat → Except String GoValue) (i fuel : Nat) (m : GoValue),
      fetch i = .ok m → isMigrationSucceeded m = false → isMigrationFailed m = true →
      waitForMigrationComplete name fetch i (fuel + 1) = .error "migration failed") ∧
    (∀ (name : String) (fetch : Nat → Except String GoValue) (i fuel : Nat),
      (∀ j, ∃ m, fetch j = .ok m ∧ isMigrationSucceeded m = false ∧
        isMigrationFailed m = false) →
      waitForMigrationComplete name fetch i fuel =
        .error ("timeout waiting for migration " ++ name ++ " to complete")) ∧
    (∀ name : String,
      ("timeout waiting for migration " ++ name ++ " to complete") ≠ "migration failed") := by
  refine ⟨?_, ?_, ?_, ?_, ?_, ?_⟩
  · intro m
    exact any_condMatches_iff "Succeeded" m
  · intro m
    exact any_condMatches_iff "Failed" m
  · intro name fetch i fuel m hf hs
    rw [waitForMigrationComplete_succ, hf]
    simp [hs]
  · intro name fetch i fuel m hf hs hfl
    rw [waitForMigrationComplete_succ, hf]
    simp [hs, hfl]
  · intro name fetch i fuel hall
    induction fuel generalizing i with
    | zero => rfl
    | succ fuel ih =>
      obtain ⟨m, hf, hs, hfl⟩ := hall i
      rw [waitForMigrationComplete_succ, hf]
      simp only [hs, hfl, Bool.false_eq_true, if_false]
      exact ih (i + 1)
  · intro name h
    have hlen := congrArg String.length h
    rw [String.length_append, String.length_append] at hlen
    have h1 : ("timeout waiting for migration ").length = 30 := rfl
    have h2 : (" to complete").length = 12 := rfl
    have h3 : ("migration failed").length = 16 := rfl
    omega

/-- Witness for C9's timeout branch at a concrete conditionless status
stream with a two-tick budget. -/
theorem migration_monitor_spec_witness :
    waitForMigrationComplete "demo" (fun _ => .ok (GoValue.obj [])) 0 2 =
      .error ("timeout waiting for migration " ++ "demo" ++ " to complete") :=
  migration_monitor_spec.2.2.2.2.1 "demo" (fun _ => .ok (GoValue.obj [])) 0 2
    (fun _ => ⟨GoValue.obj [], rfl, rfl, rfl⟩)
